import Mathlib

/-!
Verification of the nucleotide-sequence operations of this repository
(src/skbio/sequence/_nucleotide_sequence.py): the complement engine
(`complement`, `reverse_complement`, `is_reverse_complement`) and the
motif registry with its built-in purine-run and pyrimidine-run detectors.

The generic sequence container (symbol storage, quality storage, identity
metadata, regex scanning) and the registry machinery live outside the
repository snapshot; where a claim depends on them they are modelled from
the spec, and each such definition says so in its doc comment.
-/

namespace Skbio

/-- The sequence data the complement engine operates on: ordered symbols,
optional per-position quality scores, and identity metadata (id and
description) that the rebuild operation `_to` copies unchanged. -/
structure Sequence where
  symbols : List Char
  quality : Option (List Nat)
  id : String
  description : String
deriving DecidableEq, Repr

/-- Embeds the list comprehension
`[complement_map[str(base)] for base in seq_iterator]` of
`NucleotideSequence.complement`: substitute every symbol by its image under
the complement map, failing with a KeyError (a LookupError) carrying the
first symbol that has no entry, exactly as Python dict indexing does. -/
def complementList (complement_map : Char → Option Char) :
    List Char → Except Char (List Char)
  | [] => .ok []
  | c :: cs =>
    match complement_map c with
    | none => .error c
    | some d => (complementList complement_map cs).map (fun rest => d :: rest)

/-- Embeds `NucleotideSequence.complement(self, reverse=False)`:
iterate the symbols (reversed when `reverse`), substitute each through
`complement_map`, reverse the quality scores only when quality is present
and `reverse` is set, and rebuild a sequence carrying the same id and
description. Errors are the KeyError of the symbol lookup. -/
def complement (complement_map : Char → Option Char) (s : Sequence)
    (reverse : Bool) : Except Char Sequence :=
  let seq_iterator := if reverse then s.symbols.reverse else s.symbols
  match complementList complement_map seq_iterator with
  | .error c => .error c
  | .ok result =>
    let quality :=
      if s.quality.isSome && reverse then s.quality.map List.reverse
      else s.quality
    .ok { s with symbols := result, quality := quality }

/-- Embeds `NucleotideSequence.reverse_complement`, which is literally
`return self.complement(reverse=True)`. -/
def reverse_complement (complement_map : Char → Option Char) (s : Sequence) :
    Except Char Sequence :=
  complement complement_map s true

/-- Embeds `NucleotideSequence.is_reverse_complement(self, other)` after the
external coercion step `_munge_to_sequence` has produced `other`: if the
lengths differ return `False` at once; otherwise compare the symbol string
of the reverse complement of `self` with the symbol string of `other`
(`self.reverse_complement()._string == other._string`). A lookup failure
inside `reverse_complement` propagates as the error. -/
def is_reverse_complement (complement_map : Char → Option Char)
    (s other : Sequence) : Except Char Bool :=
  if s.symbols.length ≠ other.symbols.length then .ok false
  else (reverse_complement complement_map s).map
    (fun r => r.symbols == other.symbols)

/-- Modelled from the spec: the complement map of the concrete DNA variant
(its defining file is not part of the snapshot) restricted to the standard
mapping the spec uses in its examples: A↔T, C↔G. -/
def dnaComplementMap : Char → Option Char
  | 'A' => some 'T'
  | 'T' => some 'A'
  | 'C' => some 'G'
  | 'G' => some 'C'
  | _ => none

/-- Modelled from the spec: the unspecialized base family's `complement_map`
is the empty mapping ("complementation undefined here"); the abstract
property machinery resolving it is not in the snapshot, and its documented
value is the empty dict. -/
def nucleotideComplementMap : Char → Option Char := fun _ => none

/-- True when position `k` of `symbols` is either past the end or holds a
character outside `charset`; used to state that a run cannot be extended. -/
def notInSetAt (charset : List Char) (symbols : List Char) (k : Nat) : Bool :=
  match symbols.get? k with
  | none => true
  | some c => !(charset.contains c)

/-- `[i, j)` is a maximal run of characters from `charset` in `symbols` of
length at least `minLength`: nonempty, in bounds, every symbol of the run
belongs to `charset`, and the run extends neither left nor right. -/
def isMaximalRun (charset : List Char) (symbols : List Char)
    (minLength i j : Nat) : Bool :=
  decide (i < j) && decide (j ≤ symbols.length) && decide (minLength ≤ j - i)
    && ((symbols.drop i).take (j - i)).all (fun c => charset.contains c)
    && (decide (i = 0) || notInSetAt charset symbols (i - 1))
    && notInSetAt charset symbols j

/-- True when the half-open spans `[a, b)` and `[i, j)` intersect. -/
def spanOverlaps (a b i j : Nat) : Bool := decide (i < b) && decide (a < j)

/-- Modelled from the spec: `Sequence.slices_from_regex`, the regex-scanning
primitive of the external sequence container, instantiated at the only
pattern shape the detectors use, a character-class repetition
`([...]{m,})`. Per the spec it produces the maximal runs of length at
least `m` of characters drawn from the class, outside the excluded spans
(exclusion applied as a filter on the matched spans). -/
def slices_from_regex (charset : List Char) (minLength : Nat)
    (exclude : List (Nat × Nat)) (symbols : List Char) : List (Nat × Nat) :=
  (List.range (symbols.length + 1)).flatMap (fun i =>
    (List.range (symbols.length + 1)).filterMap (fun j =>
      if isMaximalRun charset symbols minLength i j
          && !(exclude.any (fun sp => spanOverlaps sp.1 sp.2 i j))
      then some (i, j) else none))

/-- Embeds `_motif_purine_run`: delegates to the regex primitive with the
pattern `([AGR]{min_length,})`. -/
def _motif_purine_run (sequence : List Char) (min_length : Nat)
    (exclude : List (Nat × Nat)) : List (Nat × Nat) :=
  slices_from_regex ['A', 'G', 'R'] min_length exclude sequence

/-- Embeds `_motif_pyrimidine_run`: delegates to the regex primitive with
the pattern `([CTUY]{min_length,})`. -/
def _motif_pyrimidine_run (sequence : List Char) (min_length : Nat)
    (exclude : List (Nat × Nat)) : List (Nat × Nat) :=
  slices_from_regex ['C', 'T', 'U', 'Y'] min_length exclude sequence

/-- A motif detector: sequence symbols, minimum run length, excluded spans,
producing match spans. -/
abbrev Detector := List Char → Nat → List (Nat × Nat) → List (Nat × Nat)

/-- Modelled from the spec: the per-family motif registry (the MiniRegistry
utility behind `_motifs` is not in the snapshot). A registry is its list of
(name, detector) entries in registration order. -/
structure MotifRegistry where
  entries : List (String × Detector)

/-- Look a detector up by name in a registry. -/
def lookupMotif (reg : MotifRegistry) (name : String) : Option Detector :=
  (reg.entries.find? (fun e => e.1 == name)).map Prod.snd

/-- Modelled from the spec: the base (IUPAC) family's registry, which is
empty before the nucleotide family forks it. -/
def parent_motifs : MotifRegistry := ⟨[]⟩

/-- Embeds `_motifs = parent_motifs.copy()` followed by the two decorator
registrations: the nucleotide family's registry holds `purine-run` and
`pyrimidine-run`, in that registration order. -/
def _motifs : MotifRegistry :=
  ⟨parent_motifs.entries ++
    [("purine-run", _motif_purine_run),
     ("pyrimidine-run", _motif_pyrimidine_run)]⟩

/-- Modelled from the spec: `find_motifs`, interpolated onto the sequence
family by the registry utility (not in the snapshot). With a `name` it runs
that one detector, failing with an UnknownMotif (LookupError-class)
condition naming the unknown motif when it is absent from the registry;
without a `name` it runs every registered detector in registration order
and chains their spans. -/
def find_motifs (reg : MotifRegistry) (symbols : List Char)
    (name : Option String) (min_length : Nat) (exclude : List (Nat × Nat)) :
    Except String (List (Nat × Nat)) :=
  match name with
  | some n =>
    match lookupMotif reg n with
    | none => .error n
    | some d => .ok (d symbols min_length exclude)
  | none =>
    .ok (reg.entries.flatMap (fun e => e.2 symbols min_length exclude))

/-- The total function a complement map defines on the symbols where it is
defined. -/
def mapOr (complement_map : Char → Option Char) (c : Char) : Char :=
  (complement_map c).getD 'A'

/-- When every symbol of the list has an entry, the substitution succeeds
and is the elementwise image. -/
theorem complementList_ok (cmap : Char → Option Char) (l : List Char)
    (h : ∀ c ∈ l, (cmap c).isSome) :
    complementList cmap l = .ok (l.map (mapOr cmap)) := by
  induction l with
  | nil => rfl
  | cons c cs ih =>
    obtain ⟨d, hd⟩ := Option.isSome_iff_exists.mp (h c (List.mem_cons_self c cs))
    have hcs := ih (fun x hx => h x (List.mem_cons_of_mem c hx))
    simp [complementList, hd, hcs, Except.map, mapOr]

/-- When some symbol of the list has no entry, the substitution fails with
an error identifying a symbol of the list that has no entry. -/
theorem complementList_error (cmap : Char → Option Char) (l : List Char)
    (h : ∃ c ∈ l, cmap c = none) :
    ∃ c, complementList cmap l = .error c ∧ c ∈ l ∧ cmap c = none := by
  induction l with
  | nil => simp at h
  | cons a cs ih =>
    cases ha : cmap a with
    | none => exact ⟨a, by simp [complementList, ha], List.mem_cons_self a cs, ha⟩
    | some d =>
      obtain ⟨c, hc, hnone⟩ := h
      rcases List.mem_cons.mp hc with rfl | hmem
      · exact absurd hnone (by simp [ha])
      · obtain ⟨c, herr, hcmem, hcnone⟩ := ih ⟨c, hmem, hnone⟩
        exact ⟨c, by simp [complementList, ha, herr, Except.map],
          List.mem_cons_of_mem a hcmem, hcnone⟩

/-- C1: on the DNA sequence "TTCATT" with quality [0,1,2,3,4,5],
`complement()` yields symbols "AAGTAA" with the quality unchanged, and
`complement(reverse=True)` yields symbols "AATGAA" with quality
[5,4,3,2,1,0]; id and description are carried through. -/
theorem claim_C1 :
    complement dnaComplementMap
        ⟨"TTCATT".toList, some [0, 1, 2, 3, 4, 5], "s", ""⟩ false =
      .ok ⟨"AAGTAA".toList, some [0, 1, 2, 3, 4, 5], "s", ""⟩ ∧
    complement dnaComplementMap
        ⟨"TTCATT".toList, some [0, 1, 2, 3, 4, 5], "s", ""⟩ true =
      .ok ⟨"AATGAA".toList, some [5, 4, 3, 2, 1, 0], "s", ""⟩ := by
  exact ⟨rfl, rfl⟩

/-- C2: when the input carries quality data and `complement` succeeds, the
result of `complement(reverse=True)` (that is, of `reverse_complement`)
carries the reversed quality list, and the result of
`complement(reverse=False)` carries the quality list unchanged. -/
theorem claim_C2 (cmap : Char → Option Char) (s : Sequence) (q : List Nat)
    (hq : s.quality = some q) :
    (∀ r, reverse_complement cmap s = .ok r → r.quality = some q.reverse) ∧
    (∀ r, complement cmap s false = .ok r → r.quality = some q) := by
  constructor
  · intro r hr
    unfold reverse_complement complement at hr
    cases hcl : complementList cmap s.symbols.reverse with
    | error c => simp [hcl] at hr
    | ok res =>
      simp [hcl, hq] at hr
      subst hr
      simp [hq]
  · intro r hr
    unfold complement at hr
    cases hcl : complementList cmap s.symbols with
    | error c => simp [hcl] at hr
    | ok res =>
      simp [hcl] at hr
      subst hr
      exact hq

/-- Witness for C2 at the DNA sequence "TTCATT" with quality [0..5]. -/
theorem claim_C2_witness :
    (⟨"TTCATT".toList, some [0, 1, 2, 3, 4, 5], "s", ""⟩ : Sequence).quality =
        some [0, 1, 2, 3, 4, 5] ∧
    ((∀ r, reverse_complement dnaComplementMap
        ⟨"TTCATT".toList, some [0, 1, 2, 3, 4, 5], "s", ""⟩ = .ok r →
        r.quality = some ([0, 1, 2, 3, 4, 5] : List Nat).reverse) ∧
     (∀ r, complement dnaComplementMap
        ⟨"TTCATT".toList, some [0, 1, 2, 3, 4, 5], "s", ""⟩ false = .ok r →
        r.quality = some [0, 1, 2, 3, 4, 5])) :=
  ⟨rfl, claim_C2 dnaComplementMap
    ⟨"TTCATT".toList, some [0, 1, 2, 3, 4, 5], "s", ""⟩ [0, 1, 2, 3, 4, 5] rfl⟩

/-- C5: `reverse_complement` is exactly `complement` with `reverse=True`;
it has no independent logic. -/
theorem claim_C5 (cmap : Char → Option Char) (s : Sequence) :
    reverse_complement cmap s = complement cmap s true := rfl

/-- C6: when the lengths differ, `is_reverse_complement` returns `False`
at once, for every complement map (even the empty one) and every content of
`other`; no complement is computed and no error can be produced. -/
theorem claim_C6 (cmap : Char → Option Char) (s other : Sequence)
    (h : s.symbols.length ≠ other.symbols.length) :
    is_reverse_complement cmap s other = .ok false := by
  simp [is_reverse_complement, h]

/-- Witness for C6: the empty base map and an `other` whose content is not
even a nucleotide string. -/
theorem claim_C6_witness :
    (⟨"ACG".toList, none, "", ""⟩ : Sequence).symbols.length ≠
        (⟨"#!".toList, none, "", ""⟩ : Sequence).symbols.length ∧
    is_reverse_complement nucleotideComplementMap
        ⟨"ACG".toList, none, "", ""⟩ ⟨"#!".toList, none, "", ""⟩ =
      .ok false :=
  ⟨by decide, claim_C6 nucleotideComplementMap _ _ (by decide)⟩

/-- C10: complementing an empty sequence succeeds for every complement map
(no symbol lookup happens) and yields an empty sequence; consequently the
undefined-complement failure can only occur on non-empty sequences. -/
theorem claim_C10 (cmap : Char → Option Char) (s : Sequence) (rev : Bool)
    (h : s.symbols = []) :
    ∃ r, complement cmap s rev = .ok r ∧ r.symbols = [] ∧
      ∀ c, complement cmap s rev ≠ .error c := by
  have hok : complement cmap s rev =
      .ok { s with symbols := ([] : List Char),
                   quality := if s.quality.isSome && rev
                              then s.quality.map List.reverse
                              else s.quality } := by
    cases rev <;> simp [complement, h, complementList]
  refine ⟨_, hok, rfl, ?_⟩
  intro c hc
  rw [hok] at hc
  exact Except.noConfusion hc

/-- When every symbol has an entry, `reverse_complement` succeeds and its
symbols are the reversed input symbols pushed through the map. -/
theorem reverse_complement_symbols (cmap : Char → Option Char) (s : Sequence)
    (h : ∀ c ∈ s.symbols, (cmap c).isSome) :
    ∃ r, reverse_complement cmap s = .ok r ∧
      r.symbols = s.symbols.reverse.map (mapOr cmap) := by
  have hcl := complementList_ok cmap s.symbols.reverse
    (fun c hc => h c (List.mem_reverse.mp hc))
  refine ⟨⟨s.symbols.reverse.map (mapOr cmap),
    (if s.quality.isSome then s.quality.map List.reverse else s.quality),
    s.id, s.description⟩, ?_, rfl⟩
  simp [reverse_complement, complement, hcl]

/-- C3: when every symbol of `s` has a complement whose complement is the
original symbol, taking the reverse complement twice succeeds and restores
the symbol content of `s`. -/
theorem claim_C3 (cmap : Char → Option Char) (s : Sequence)
    (h : ∀ c ∈ s.symbols, (cmap c).bind cmap = some c) :
    ∃ r1 r2, reverse_complement cmap s = .ok r1 ∧
      reverse_complement cmap r1 = .ok r2 ∧ r2.symbols = s.symbols := by
  have h2 : ∀ c ∈ s.symbols, ∃ d, cmap c = some d ∧ cmap d = some c := by
    intro c hc
    have hb := h c hc
    cases hcm : cmap c with
    | none => rw [hcm] at hb; simp at hb
    | some d => rw [hcm] at hb; exact ⟨d, rfl, by simpa using hb⟩
  have hsome1 : ∀ c ∈ s.symbols, (cmap c).isSome := by
    intro c hc
    obtain ⟨d, hd, _⟩ := h2 c hc
    simp [hd]
  obtain ⟨r1, hr1, hs1⟩ := reverse_complement_symbols cmap s hsome1
  have hsome2 : ∀ c ∈ r1.symbols, (cmap c).isSome := by
    intro c hc
    rw [hs1] at hc
    obtain ⟨a, ha, rfl⟩ := List.mem_map.mp hc
    obtain ⟨d, hd, hdc⟩ := h2 a (List.mem_reverse.mp ha)
    simp [mapOr, hd, hdc]
  obtain ⟨r2, hr2, hs2⟩ := reverse_complement_symbols cmap r1 hsome2
  refine ⟨r1, r2, hr1, hr2, ?_⟩
  rw [hs2, hs1, List.map_reverse, List.map_map]
  have hgg : ∀ c ∈ s.symbols.reverse,
      (mapOr cmap ∘ mapOr cmap) c = id c := by
    intro c hc
    obtain ⟨d, hd, hdc⟩ := h2 c (List.mem_reverse.mp hc)
    simp [Function.comp, mapOr, hd, hdc]
  rw [List.map_congr_left hgg, List.map_id, List.reverse_reverse]

/-- Witness for C3: the DNA sequence "ACGT" under the standard DNA map. -/
theorem claim_C3_witness :
    (∀ c ∈ (⟨"ACGT".toList, none, "", ""⟩ : Sequence).symbols,
      (dnaComplementMap c).bind dnaComplementMap = some c) ∧
    ∃ r1 r2,
      reverse_complement dnaComplementMap ⟨"ACGT".toList, none, "", ""⟩ =
        .ok r1 ∧
      reverse_complement dnaComplementMap r1 = .ok r2 ∧
      r2.symbols = (⟨"ACGT".toList, none, "", ""⟩ : Sequence).symbols :=
  ⟨by decide,
   claim_C3 dnaComplementMap ⟨"ACGT".toList, none, "", ""⟩ (by decide)⟩

/-- C4: complement fails with the lookup error naming an offending symbol
whenever some symbol of the sequence has no entry in the complement map, and
in particular, for every non-empty sequence, under the base family's empty
complement map. -/
theorem claim_C4 (cmap : Char → Option Char) (s : Sequence) (rev : Bool) :
    (s.symbols ≠ [] →
      ∃ c, complement nucleotideComplementMap s rev = .error c ∧
        c ∈ s.symbols) ∧
    ((∃ c ∈ s.symbols, cmap c = none) →
      ∃ c, complement cmap s rev = .error c ∧ c ∈ s.symbols ∧
        cmap c = none) := by
  have key : ∀ m : Char → Option Char, (∃ c ∈ s.symbols, m c = none) →
      ∃ c, complement m s rev = .error c ∧ c ∈ s.symbols ∧ m c = none := by
    intro m hm
    cases rev with
    | true =>
      obtain ⟨c, hc, hmem, hnone⟩ := complementList_error m s.symbols.reverse
        (by obtain ⟨c, hcm, hn⟩ := hm; exact ⟨c, List.mem_reverse.mpr hcm, hn⟩)
      exact ⟨c, by simp [complement, hc], List.mem_reverse.mp hmem, hnone⟩
    | false =>
      obtain ⟨c, hc, hmem, hnone⟩ := complementList_error m s.symbols hm
      exact ⟨c, by simp [complement, hc], hmem, hnone⟩
  constructor
  · intro hne
    obtain ⟨c, herr, hmem, _⟩ := key nucleotideComplementMap (by
      cases hsym : s.symbols with
      | nil => exact absurd hsym hne
      | cons a l => exact ⟨a, by simp [hsym], rfl⟩)
    exact ⟨c, herr, hmem⟩
  · exact key cmap

/-- Witness for C4: the non-empty sequence "ACGT" under the base family's
empty complement map. -/
theorem claim_C4_witness :
    (⟨"ACGT".toList, none, "", ""⟩ : Sequence).symbols ≠ [] ∧
    ∃ c, complement nucleotideComplementMap
        ⟨"ACGT".toList, none, "", ""⟩ false = .error c ∧
      c ∈ (⟨"ACGT".toList, none, "", ""⟩ : Sequence).symbols :=
  ⟨by decide,
   (claim_C4 nucleotideComplementMap ⟨"ACGT".toList, none, "", ""⟩ false).1
     (by decide)⟩

/-- C7: on equal lengths, `is_reverse_complement` answers `True` exactly
when the symbols of the reverse complement of `s` equal the symbols of
`other`; quality and identity metadata of either argument never influence
the answer. -/
theorem claim_C7 (cmap : Char → Option Char) (s other r : Sequence)
    (hlen : s.symbols.length = other.symbols.length)
    (hrc : reverse_complement cmap s = .ok r) :
    (is_reverse_complement cmap s other = .ok true ↔
      r.symbols = other.symbols) ∧
    (∀ q i d q2 i2 d2,
      is_reverse_complement cmap
        { s with quality := q, id := i, description := d }
        { other with quality := q2, id := i2, description := d2 } =
      is_reverse_complement cmap s other) := by
  constructor
  · unfold reverse_complement complement at hrc
    cases hc : complementList cmap s.symbols.reverse with
    | error c => simp [hc] at hrc
    | ok res =>
      simp [hc] at hrc
      have hrs : r.symbols = res := by rw [← hrc]
      simp [is_reverse_complement, hlen, reverse_complement, complement, hc,
        Except.map, hrs]
  · intro q i d q2 i2 d2
    cases hc : complementList cmap s.symbols.reverse <;>
      simp [is_reverse_complement, reverse_complement, complement, hc,
        Except.map]

/-- Witness for C7: the palindromic DNA example "ACGT", whose reverse
complement is itself. -/
theorem claim_C7_witness :
    (⟨"ACGT".toList, none, "", ""⟩ : Sequence).symbols.length =
        (⟨"ACGT".toList, none, "x", ""⟩ : Sequence).symbols.length ∧
    reverse_complement dnaComplementMap ⟨"ACGT".toList, none, "", ""⟩ =
        .ok ⟨"ACGT".toList, none, "", ""⟩ ∧
    ((is_reverse_complement dnaComplementMap ⟨"ACGT".toList, none, "", ""⟩
        ⟨"ACGT".toList, none, "x", ""⟩ = .ok true ↔
      (⟨"ACGT".toList, none, "", ""⟩ : Sequence).symbols =
        (⟨"ACGT".toList, none, "x", ""⟩ : Sequence).symbols) ∧
     (∀ q i d q2 i2 d2,
      is_reverse_complement dnaComplementMap
        { (⟨"ACGT".toList, none, "", ""⟩ : Sequence) with
            quality := q, id := i, description := d }
        { (⟨"ACGT".toList, none, "x", ""⟩ : Sequence) with
            quality := q2, id := i2, description := d2 } =
      is_reverse_complement dnaComplementMap ⟨"ACGT".toList, none, "", ""⟩
        ⟨"ACGT".toList, none, "x", ""⟩)) :=
  ⟨rfl, rfl,
   claim_C7 dnaComplementMap ⟨"ACGT".toList, none, "", ""⟩
     ⟨"ACGT".toList, none, "x", ""⟩ ⟨"ACGT".toList, none, "", ""⟩ rfl rfl⟩

/-- Counterexample to C8 as stated: scanning "AGGGGGT" for purine runs with
min_length 4 yields exactly one span, but that span covers the 6-symbol run
"AGGGGG" (positions 0 to 6), not a 5-symbol run. -/
theorem claim_C8_counterexample :
    _motif_purine_run "AGGGGGT".toList 4 [] = [(0, 6)] ∧
    ∀ sp ∈ _motif_purine_run "AGGGGGT".toList 4 [], sp.2 - sp.1 ≠ 5 := by
  decide

/-- C8 (amended): the purine-run detector matches exactly the maximal runs
of length at least min_length built from {A, G, R} that avoid the excluded
spans; scanning "AGGGGGT" with min_length 4 yields exactly one span,
covering the full 6-symbol A/G run [0, 6), and the pyrimidine-run detector
yields zero spans on that input. -/
theorem claim_C8 :
    (∀ (symbols : List Char) (minLength : Nat) (exclude : List (Nat × Nat))
        (i j : Nat),
      (i, j) ∈ _motif_purine_run symbols minLength exclude ↔
        (isMaximalRun ['A', 'G', 'R'] symbols minLength i j = true ∧
         ∀ sp ∈ exclude, spanOverlaps sp.1 sp.2 i j = false)) ∧
    _motif_purine_run "AGGGGGT".toList 4 [] = [(0, 6)] ∧
    _motif_pyrimidine_run "AGGGGGT".toList 4 [] = [] := by
  refine ⟨?_, by decide, by decide⟩
  intro symbols minLength exclude i j
  constructor
  · intro hmem
    simp only [_motif_purine_run, slices_from_regex, List.mem_flatMap,
      List.mem_filterMap, List.mem_range] at hmem
    obtain ⟨a, ha, b, hb, hab⟩ := hmem
    split at hab
    case isTrue hcond =>
      simp only [Option.some.injEq, Prod.mk.injEq] at hab
      obtain ⟨rfl, rfl⟩ := hab
      simpa only [Bool.and_eq_true, Bool.not_eq_true', List.any_eq_false,
        Bool.not_eq_true] using hcond
    case isFalse hcond => exact absurd hab (by simp)
  · rintro ⟨hrun, hexcl⟩
    have hij : i < j ∧ j ≤ symbols.length := by
      have hr := hrun
      simp only [isMaximalRun, Bool.and_eq_true, decide_eq_true_eq] at hr
      exact ⟨hr.1.1.1.1.1, hr.1.1.1.1.2⟩
    have hcond : (isMaximalRun ['A', 'G', 'R'] symbols minLength i j
        && !(exclude.any fun sp => spanOverlaps sp.1 sp.2 i j)) = true := by
      rw [Bool.and_eq_true]
      exact ⟨hrun, by
        simp only [Bool.not_eq_true', List.any_eq_false, Bool.not_eq_true]
        exact hexcl⟩
    simp only [_motif_purine_run, slices_from_regex, List.mem_flatMap,
      List.mem_filterMap, List.mem_range]
    exact ⟨i, by omega, j, by omega, by simp [hcond]⟩

/-- C9: `find_motifs` with a name absent from the family's registry fails
with the UnknownMotif condition naming it, for every registry, and returns
no results. -/
theorem claim_C9 (reg : MotifRegistry) (symbols : List Char) (n : String)
    (ml : Nat) (excl : List (Nat × Nat))
    (h : ∀ e ∈ reg.entries, e.1 ≠ n) :
    find_motifs reg symbols (some n) ml excl = .error n := by
  have hl : lookupMotif reg n = none := by
    have hf : reg.entries.find? (fun e => e.1 == n) = none :=
      List.find?_eq_none.mpr (fun e he => by simpa using h e he)
    simp [lookupMotif, hf]
  simp [find_motifs, hl]

/-- Witness for C9: the nucleotide family's registry has no entry named
"nonexistent-motif". -/
theorem claim_C9_witness :
    (∀ e ∈ _motifs.entries, e.1 ≠ "nonexistent-motif") ∧
    find_motifs _motifs "ACGT".toList (some "nonexistent-motif") 4 [] =
      .error "nonexistent-motif" := by
  have hpf : ∀ e ∈ _motifs.entries, e.1 ≠ "nonexistent-motif" := by
    intro e he
    simp only [_motifs, parent_motifs, List.nil_append, List.mem_cons,
      List.mem_singleton] at he
    rcases he with rfl | rfl | he
    · decide
    · decide
    · simp at he
  exact ⟨hpf, claim_C9 _motifs "ACGT".toList "nonexistent-motif" 4 [] hpf⟩

/-- Witness for C10: the empty sequence of the base family. -/
theorem claim_C10_witness :
    (⟨[], none, "", ""⟩ : Sequence).symbols = [] ∧
    ∃ r, complement nucleotideComplementMap ⟨[], none, "", ""⟩ true = .ok r ∧
      r.symbols = [] ∧
      ∀ c, complement nucleotideComplementMap ⟨[], none, "", ""⟩ true ≠
        .error c :=
  ⟨rfl, claim_C10 nucleotideComplementMap ⟨[], none, "", ""⟩ true rfl⟩

end Skbio
